import Mathlib

/-!
Verification of the Nest-React-Assessment client dashboard.

This file is a shallow embedding of the repository's client-side code:

* the transaction query pipeline of `frontend/app/transactions/page.tsx`
  (status filter, date-range filter, text search, stable sort, pagination)
  and the page's UI state machine (event handlers);
* the CSV serializer (`lib/csv.ts`: `escapeCsv`, `transactionsToCsv`);
* the theme storage helpers (`lib/theme.ts`: `getStoredTheme`, `applyTheme`);
* the fee computation of `components/TransactionDetails.tsx` (`calculateFee`).

Modelling conventions:

* JavaScript numbers are modelled by `JsNum`: an exact rational together with
  the three non-finite values `nan`, `posInf`, `negInf`.  IEEE-754 rounding of
  doubles is abstracted to exact rational arithmetic; the NaN/Infinity
  propagation rules, which are what the claims are about, are modelled
  faithfully.  Double overflow of huge finite values to Infinity is not
  modelled.
* `parseFloat` is implemented after the ECMAScript `parseFloat` grammar
  (optional leading ASCII whitespace, optional sign, `Infinity` or a decimal
  literal with optional fraction and exponent, longest valid prefix, `NaN`
  when no prefix parses).  Unicode whitespace beyond ASCII is not modelled.
* `new Date(s).getTime()` and the local-time `setHours(23,59,59,999)` are
  environment-dependent in the browser (date parsing rules and time zone), so
  the pipeline is parametric in a `DateEnv` providing both; no claim depends
  on which concrete strings parse as dates.
* `Array.prototype.sort` receives a user comparator; per ECMAScript a
  comparator result of `NaN` is coerced to `+0` by `SortCompare`, and the sort
  is required to be stable.  We embed it as `List.insertionSort` over the
  relation "coerced comparator value ≤ 0", which agrees with every stable sort
  whenever the comparator is consistent.
* `String.prototype.toLowerCase` is modelled on ASCII via `Char.toLower`.
-/

/-- A JavaScript number: `NaN`, the two infinities, or a finite value
(doubles abstracted to exact rationals). -/
inductive JsNum where
  | nan
  | posInf
  | negInf
  | fin (q : ℚ)
deriving DecidableEq

/-- JavaScript subtraction `a - b` on `JsNum` (NaN propagates; `∞ - ∞ = NaN`). -/
def jsSub : JsNum → JsNum → JsNum
  | .nan, _ => .nan
  | _, .nan => .nan
  | .posInf, .posInf => .nan
  | .posInf, .negInf => .posInf
  | .posInf, .fin _ => .posInf
  | .negInf, .negInf => .nan
  | .negInf, .posInf => .negInf
  | .negInf, .fin _ => .negInf
  | .fin _, .posInf => .negInf
  | .fin _, .negInf => .posInf
  | .fin a, .fin b => .fin (a - b)

/-- JavaScript unary negation on `JsNum`. -/
def jsNeg : JsNum → JsNum
  | .nan => .nan
  | .posInf => .negInf
  | .negInf => .posInf
  | .fin q => .fin (-q)

/-- JavaScript multiplication on `JsNum` (NaN propagates; `±∞ · 0 = NaN`). -/
def jsMul : JsNum → JsNum → JsNum
  | .nan, _ => .nan
  | _, .nan => .nan
  | .posInf, .posInf => .posInf
  | .posInf, .negInf => .negInf
  | .negInf, .posInf => .negInf
  | .negInf, .negInf => .posInf
  | .posInf, .fin q => if q = 0 then .nan else if 0 < q then .posInf else .negInf
  | .fin q, .posInf => if q = 0 then .nan else if 0 < q then .posInf else .negInf
  | .negInf, .fin q => if q = 0 then .nan else if 0 < q then .negInf else .posInf
  | .fin q, .negInf => if q = 0 then .nan else if 0 < q then .negInf else .posInf
  | .fin a, .fin b => .fin (a * b)

/-- JavaScript relational `a >= b`: `false` whenever either side is `NaN`. -/
def jsGeb : JsNum → JsNum → Bool
  | .nan, _ => false
  | _, .nan => false
  | .posInf, _ => true
  | .negInf, .negInf => true
  | .negInf, _ => false
  | .fin _, .negInf => true
  | .fin _, .posInf => false
  | .fin a, .fin b => decide (b ≤ a)

/-- JavaScript relational `a <= b`: `false` whenever either side is `NaN`. -/
def jsLeb (a b : JsNum) : Bool := jsGeb b a

/-- ECMAScript `SortCompare` coercion of a comparator result: the sign of the
returned number is what matters and a `NaN` result is treated as `+0`. -/
def cmpValue : JsNum → ℚ
  | .nan => 0
  | .posInf => 1
  | .negInf => -1
  | .fin q => q

/-- ASCII whitespace stripped by `parseFloat` before parsing. -/
def isJsSpace (c : Char) : Bool :=
  c = ' ' || c = '\t' || c = '\n' || c = '\r' || c = '\x0B' || c = '\x0C'

/-- Decimal digit run folded to a natural number (empty run gives `0`). -/
def digitsToNat (l : List Char) : ℕ :=
  l.foldl (fun acc c => acc * 10 + (c.toNat - 48)) 0

/-- Exponent digits of a `parseFloat` literal (an empty run contributes
exponent `0`, since an exponent part without digits is not consumed). -/
def parseExpDigits (l : List Char) : ℤ :=
  (digitsToNat ((l.span Char.isDigit).1) : ℤ)

/-- Optionally signed exponent digits of a `parseFloat` literal. -/
def parseSignedDigits : List Char → ℤ
  | '-' :: t => -(parseExpDigits t)
  | '+' :: t => parseExpDigits t
  | l => parseExpDigits l

/-- Exponent part (`e`/`E` followed by signed digits) of a `parseFloat`
literal; anything else contributes exponent `0`. -/
def parseExponent : List Char → ℤ
  | 'e' :: rest => parseSignedDigits rest
  | 'E' :: rest => parseSignedDigits rest
  | _ => 0

/-- Scale a rational by a signed power of ten. -/
def applyExp (q : ℚ) (e : ℤ) : ℚ :=
  if 0 ≤ e then q * (10 : ℚ) ^ e.toNat else q / (10 : ℚ) ^ (-e).toNat

/-- Body of `parseFloat` after leading whitespace has been stripped:
optional sign, then `Infinity` or a decimal literal `digits [. digits] [exp]`
or `. digits [exp]`; `NaN` when no valid prefix exists. -/
def parseFloatCore (l : List Char) : JsNum :=
  let signAndRest : Bool × List Char :=
    match l with
    | '-' :: t => (true, t)
    | '+' :: t => (false, t)
    | _ => (false, l)
  let neg := signAndRest.1
  let l1 := signAndRest.2
  if "Infinity".toList.isPrefixOf l1 then
    if neg then .negInf else .posInf
  else
    let ipSplit := l1.span Char.isDigit
    let ip := ipSplit.1
    let fpSplit : List Char × List Char :=
      match ipSplit.2 with
      | '.' :: t => t.span Char.isDigit
      | r => ([], r)
    let fp := fpSplit.1
    if ip.isEmpty && fp.isEmpty then .nan
    else
      let ex := parseExponent fpSplit.2
      let mag := applyExp ((digitsToNat (ip ++ fp) : ℚ) / (10 : ℚ) ^ fp.length) ex
      .fin (if neg then -mag else mag)

/-- ECMAScript `parseFloat`, as used for `amount`, `gasLimit` and `gasPrice`
strings throughout the frontend. -/
def jsParseFloat (s : String) : JsNum :=
  parseFloatCore (s.toList.dropWhile isJsSpace)

/-- Transaction record from `lib/types.ts` (`gasLimit`/`gasPrice` optional). -/
structure Transaction where
  id : String
  hash : String
  fromAddress : String
  toAddress : String
  amount : String
  status : String
  gasLimit : Option String
  gasPrice : Option String
  timestamp : String
deriving DecidableEq

/-- ASCII model of `String.prototype.toLowerCase`. -/
def strToLower (s : String) : String :=
  String.mk (s.toList.map Char.toLower)

/-- Substring test on char lists: does `sub` occur contiguously in the list? -/
def listIncludes (sub : List Char) : List Char → Bool
  | [] => sub.isEmpty
  | c :: rest => sub.isPrefixOf (c :: rest) || listIncludes sub rest

/-- Model of `String.prototype.includes`. -/
def jsIncludes (hay needle : String) : Bool :=
  listIncludes needle.toList hay.toList

/-- Browser environment for dates: `parse s` is `new Date(s).getTime()`
(`nan` for an invalid date), and `endOfDayQ t` is the time value obtained
from a valid date with time value `t` after `setHours(23, 59, 59, 999)`
(local-time day arithmetic, hence environment-dependent). -/
structure DateEnv where
  parse : String → JsNum
  endOfDayQ : ℚ → ℚ

/-- Effect of `setHours(23, 59, 59, 999)` on a date's time value: an invalid
date stays invalid, a valid one is moved by the environment's day arithmetic. -/
def jsEndOfDay (env : DateEnv) : JsNum → JsNum
  | .fin q => .fin (env.endOfDayQ q)
  | _ => .nan

/-- Sort fields of the transactions page (`type SortField`). -/
inductive SortField where
  | date
  | amount
  | status
deriving DecidableEq

/-- Sort orders of the transactions page (`type SortOrder`). -/
inductive SortOrder where
  | asc
  | desc
deriving DecidableEq

/-- Query parameters of the pipeline, mirroring the component state consumed
by the `filteredAndSortedTransactions` memo: `search` is the debounced search
string, `page` the 1-based current page. -/
structure QueryParams where
  statusFilter : String
  dateFrom : String
  dateTo : String
  search : String
  sortField : SortField
  sortOrder : SortOrder
  page : ℕ

/-- Sign of `localeCompare` on the status strings, modelled as ASCII
lexicographic comparison (the status alphabet is plain ASCII): `0` exactly on
equal strings, negative below, positive above. -/
def strCmpQ (a b : String) : ℚ :=
  if a = b then 0 else if a < b then -1 else 1

/-- Raw comparator of the sort stage, before the order sign and before
`SortCompare` coercion — the `comparison` variable of the source:
`date` subtracts parsed timestamps, `amount` subtracts `parseFloat`s of the
amount strings, `status` is `localeCompare`. -/
def comparisonRaw (env : DateEnv) : SortField → Transaction → Transaction → JsNum
  | .date, a, b => jsSub (env.parse a.timestamp) (env.parse b.timestamp)
  | .amount, a, b => jsSub (jsParseFloat a.amount) (jsParseFloat b.amount)
  | .status, a, b => .fin (strCmpQ a.status b.status)

/-- Comparator actually returned to `sort`: `asc` keeps `comparison`,
`desc` negates it. -/
def orderedComparison (env : DateEnv) (f : SortField) (ord : SortOrder)
    (a b : Transaction) : JsNum :=
  match ord with
  | .asc => comparisonRaw env f a b
  | .desc => jsNeg (comparisonRaw env f a b)

/-- Effective comparison value used by the sort: the comparator result after
ECMAScript's `SortCompare` coercion (`NaN` ↦ `+0`). -/
def sortCmpVal (env : DateEnv) (f : SortField) (ord : SortOrder)
    (a b : Transaction) : ℚ :=
  cmpValue (orderedComparison env f ord a b)

/-- Ordering relation induced by the comparator: `a` need not come after `b`. -/
def txLe (env : DateEnv) (f : SortField) (ord : SortOrder)
    (a b : Transaction) : Prop :=
  sortCmpVal env f ord a b ≤ 0

instance (env : DateEnv) (f : SortField) (ord : SortOrder) :
    DecidableRel (txLe env f ord) :=
  fun a b => decidable_of_iff (sortCmpVal env f ord a b ≤ 0) Iff.rfl

/-- The sort stage: `result.sort(comparator)`.  ECMAScript requires the sort
to be stable; we embed it as insertion sort, which agrees with every stable
sort whenever the comparator is consistent. -/
def sortStage (env : DateEnv) (f : SortField) (ord : SortOrder)
    (l : List Transaction) : List Transaction :=
  List.insertionSort (txLe env f ord) l

/-- Status filter stage: `if (statusFilter !== 'all') result.filter(...)`. -/
def statusStage (sf : String) (l : List Transaction) : List Transaction :=
  if sf ≠ "all" then l.filter (fun tx => tx.status == sf) else l

/-- Date-from filter stage: `if (dateFrom) result.filter(tx => new
Date(tx.timestamp) >= fromDate)` (truthiness of a string is non-emptiness). -/
def dateFromStage (env : DateEnv) (df : String) (l : List Transaction) :
    List Transaction :=
  if df ≠ "" then
    let fromDate := env.parse df
    l.filter (fun tx => jsGeb (env.parse tx.timestamp) fromDate)
  else l

/-- Date-to filter stage: `if (dateTo) { toDate.setHours(23,59,59,999);
result.filter(tx => new Date(tx.timestamp) <= toDate) }`. -/
def dateToStage (env : DateEnv) (dt : String) (l : List Transaction) :
    List Transaction :=
  if dt ≠ "" then
    let toDate := jsEndOfDay env (env.parse dt)
    l.filter (fun tx => jsLeb (env.parse tx.timestamp) toDate)
  else l

/-- Search predicate of the source: the already-lowercased query must occur
in the lowercased hash, from-address, or to-address. -/
def searchMatches (query : String) (tx : Transaction) : Bool :=
  jsIncludes (strToLower tx.hash) query ||
  jsIncludes (strToLower tx.fromAddress) query ||
  jsIncludes (strToLower tx.toAddress) query

/-- Text-search stage: `if (debouncedSearch) { const query =
debouncedSearch.toLowerCase(); result.filter(...) }`. -/
def searchStage (s : String) (l : List Transaction) : List Transaction :=
  if s ≠ "" then l.filter (searchMatches (strToLower s)) else l

/-- The `filteredAndSortedTransactions` memo: status filter, date-from,
date-to, text search, then the comparator sort, in the source's order. -/
def filteredAndSortedTransactions (env : DateEnv) (txs : List Transaction)
    (p : QueryParams) : List Transaction :=
  sortStage env p.sortField p.sortOrder
    (searchStage p.search
      (dateToStage env p.dateTo
        (dateFromStage env p.dateFrom
          (statusStage p.statusFilter txs))))

/-- `const itemsPerPage = 15`. -/
def itemsPerPage : ℕ := 15

/-- One page slice: `list.slice((page - 1) * k, (page - 1) * k + k)`. -/
def paginateList {α : Type} (l : List α) (page k : ℕ) : List α :=
  (l.drop ((page - 1) * k)).take k

/-- The `paginatedTransactions` memo: slice of the filtered-and-sorted list
at the current page, `itemsPerPage` entries per page, with no clamping of
the page index. -/
def paginatedTransactions (env : DateEnv) (txs : List Transaction)
    (p : QueryParams) : List Transaction :=
  paginateList (filteredAndSortedTransactions env txs p) p.page itemsPerPage

/-- `Math.ceil(n / k)` on naturals, as in `totalPages`. -/
def totalPagesFor (n k : ℕ) : ℕ := (n + k - 1) / k

/-- `const totalPages = Math.ceil(filteredAndSortedTransactions.length /
itemsPerPage)`. -/
def totalPagesOf (env : DateEnv) (txs : List Transaction) (p : QueryParams) :
    ℕ :=
  totalPagesFor (filteredAndSortedTransactions env txs p).length itemsPerPage

/-- UI state of the transactions page relevant to querying: the React
`useState` cells feeding the memoized pipeline. -/
structure UiState where
  statusFilter : String
  dateFrom : String
  dateTo : String
  searchQuery : String
  debouncedSearch : String
  sortField : SortField
  sortOrder : SortOrder
  currentPage : ℕ
deriving DecidableEq

/-- Events of the transactions page state machine: each constructor is one
state-changing handler of the source (`onChange`/`onValueChange` setters, the
300 ms search debounce firing, `clearFilters`, `handleSort`, and the
pagination buttons). -/
inductive UiEvent where
  | setSearch (v : String)
  | debounceFire
  | setStatus (v : String)
  | setDateFrom (v : String)
  | setDateTo (v : String)
  | clearFilters
  | sortClick (f : SortField)
  | setPage (n : ℕ)

/-- Transition function of the transactions page, one case per handler:
`setSearch` is the search input's `onChange` (no page reset); `debounceFire`
is the debounce effect body (`setDebouncedSearch(searchQuery);
setCurrentPage(1)`); `setStatus`, `setDateFrom`, `setDateTo` are the bare
state setters wired to the controls; `clearFilters` and `sortClick`
(`handleSort`) reset the page; `setPage` is the pagination buttons. -/
def step (s : UiState) : UiEvent → UiState
  | .setSearch v => { s with searchQuery := v }
  | .debounceFire => { s with debouncedSearch := s.searchQuery, currentPage := 1 }
  | .setStatus v => { s with statusFilter := v }
  | .setDateFrom v => { s with dateFrom := v }
  | .setDateTo v => { s with dateTo := v }
  | .clearFilters =>
    { s with statusFilter := "all", dateFrom := "", dateTo := "",
             searchQuery := "", currentPage := 1 }
  | .sortClick f =>
    if s.sortField = f then
      { s with sortOrder := if s.sortOrder = .asc then .desc else .asc,
               currentPage := 1 }
    else
      { s with sortField := f, sortOrder := .desc, currentPage := 1 }
  | .setPage n => { s with currentPage := n }

/-- Global doubling of double quotes: `value.replace(/"/g, '""')`. -/
def doubleQuotes : List Char → List Char
  | [] => []
  | c :: cs => if c = '"' then c :: c :: doubleQuotes cs else c :: doubleQuotes cs

/-- Characters of the `/[",\n]/` test in `escapeCsv`. -/
def isCsvSpecial (c : Char) : Bool := c = '"' || c = ',' || c = '\n'

/-- `escapeCsv` from `lib/csv.ts`: double every internal quote, then wrap in
quotes when the original value contains a quote, comma, or newline. -/
def escapeCsv (value : String) : String :=
  let needsQuotes := value.toList.any isCsvSpecial
  let escaped := String.mk (doubleQuotes value.toList)
  if needsQuotes then "\"" ++ escaped ++ "\"" else escaped

/-- The fixed CSV header line. -/
def csvHeader : String :=
  "id,hash,fromAddress,toAddress,amount,status,gasLimit,gasPrice,timestamp"

/-- One CSV data row: the nine fields in the source's order, escaped and
joined by commas (`r.gasLimit ?? ''` is `Option.getD`). -/
def csvRow (r : Transaction) : String :=
  String.intercalate ","
    ([r.id, r.hash, r.fromAddress, r.toAddress, r.amount, r.status,
      r.gasLimit.getD "", r.gasPrice.getD "", r.timestamp].map escapeCsv)

/-- `transactionsToCsv` from `lib/csv.ts`: accumulate the header line and one
row per record in a loop, then join with newlines. -/
def transactionsToCsv (rows : List Transaction) : String :=
  let lines := rows.foldl (fun acc r => acc ++ [csvRow r]) [csvHeader]
  String.intercalate "\n" lines

/-- Theme values (`type Theme = 'light' | 'dark'`). -/
inductive Theme where
  | light
  | dark
deriving DecidableEq

/-- String stored for each theme. -/
def themeString : Theme → String
  | .light => "light"
  | .dark => "dark"

/-- Browser-side state touched by `lib/theme.ts`: the `localStorage` value
under the `'theme'` key (absent ↦ `none`) and whether `documentElement` has
the `dark` class.  The `typeof window === 'undefined'` guards are modelled by
working in a browser environment where this state exists. -/
structure DomState where
  storedTheme : Option String
  darkClass : Bool
deriving DecidableEq

/-- `getStoredTheme`: read the stored value and report it only when it is
exactly `'dark'` or `'light'`, otherwise `null`. -/
def getStoredTheme (s : DomState) : Option Theme :=
  match s.storedTheme with
  | some v => if v = "dark" then some .dark else if v = "light" then some .light else none
  | none => none

/-- `applyTheme`: toggle the root `dark` class and persist the theme string. -/
def applyTheme (t : Theme) (_s : DomState) : DomState :=
  { darkClass := t = Theme.dark, storedTheme := some (themeString t) }

/-- JavaScript falsiness of a `string | undefined` value: `undefined` and the
empty string are falsy. -/
def jsFalsyOptStr : Option String → Bool
  | none => true
  | some s => s = ""

/-- Fee product `parseFloat(gasLimit) * parseFloat(gasPrice)` of a
transaction, with absent fields read as the empty string. -/
def feeProduct (tx : Transaction) : JsNum :=
  jsMul (jsParseFloat (tx.gasLimit.getD "")) (jsParseFloat (tx.gasPrice.getD ""))

/-- Number of fraction digits fixed by `calculateFee`'s rendering. -/
def feeScale : ℕ := 100000000

/-- ECMAScript `toFixed(8)` of a nonnegative rational: round to the nearest
multiple of `10 ^ (-8)`, ties to the larger value, then print with exactly
eight fraction digits. -/
def toFixed8Pos (x : ℚ) : String :=
  let n : ℕ := (Int.floor (x * (feeScale : ℚ) + 1 / 2)).toNat
  let fs := toString (n % feeScale)
  toString (n / feeScale) ++ "." ++
    String.mk (List.replicate (8 - fs.length) '0') ++ fs

/-- ECMAScript `Number.prototype.toFixed(8)` on the `JsNum` model (negative
values print a minus sign before the rounded magnitude; non-finite values
print their `ToString`). -/
def jsToFixed8 : JsNum → String
  | .nan => "NaN"
  | .posInf => "Infinity"
  | .negInf => "-Infinity"
  | .fin q => if q < 0 then "-" ++ toFixed8Pos (-q) else toFixed8Pos q

/-- `calculateFee` from `TransactionDetails.tsx`: `'N/A'` when either gas
field is falsy (absent or empty) or the product is `NaN`, otherwise the
product fixed to eight decimals. -/
def calculateFee (tx : Transaction) : String :=
  if jsFalsyOptStr tx.gasLimit || jsFalsyOptStr tx.gasPrice then "N/A"
  else
    let fee := feeProduct tx
    if fee = JsNum.nan then "N/A" else jsToFixed8 fee

/-- Condition under which claim C10 says the fee is unavailable: a gas field
is absent, or the product of the numeric parses is not a number. -/
def feeUnavailable (tx : Transaction) : Bool :=
  tx.gasLimit.isNone || tx.gasPrice.isNone || decide (feeProduct tx = JsNum.nan)

/-- Sort key of a transaction for a sort field: the value whose pairwise
differences (or `localeCompare`, for `status`) drive the comparator. -/
def sortKey (env : DateEnv) : SortField → Transaction → JsNum ⊕ String
  | .date, tx => Sum.inl (env.parse tx.timestamp)
  | .amount, tx => Sum.inl (jsParseFloat tx.amount)
  | .status, tx => Sum.inr tx.status

/-- Modelled from the spec: the amount sort key the claims describe, where a
transaction "whose amount string does not parse as a number is compared as if
its amount were 0". -/
def claimAmountValue (s : String) : ℚ :=
  match jsParseFloat s with
  | .fin q => q
  | _ => 0

/-- Modelled from the spec: the amount ordering relation claimed by C2/C7 —
compare the zero-coerced amount values, with `desc` negating the sign. -/
def claimAmountLe (ord : SortOrder) (a b : Transaction) : Prop :=
  match ord with
  | .asc => claimAmountValue a.amount ≤ claimAmountValue b.amount
  | .desc => claimAmountValue b.amount ≤ claimAmountValue a.amount

instance (ord : SortOrder) : DecidableRel (claimAmountLe ord) :=
  fun a b =>
    match ord with
    | .asc =>
      decidable_of_iff (claimAmountValue a.amount ≤ claimAmountValue b.amount) Iff.rfl
    | .desc =>
      decidable_of_iff (claimAmountValue b.amount ≤ claimAmountValue a.amount) Iff.rfl

/-- Modelled from the spec: the amount sort stage the claims describe — a
stable sort by the zero-coerced amount values. -/
def claimAmountSort (ord : SortOrder) (l : List Transaction) :
    List Transaction :=
  List.insertionSort (claimAmountLe ord) l

attribute [local semireducible] Rat.mul Rat.add Rat.sub Rat.inv

/-- Date environment in which no string parses as a date; the date-related
claims hold for every environment, and the concrete evaluations below use
queries with no date bounds, so the environment is immaterial there. -/
def nanDateEnv : DateEnv := { parse := fun _ => JsNum.nan, endOfDayQ := fun q => q }

/-- Concrete transaction with a given id and amount, used by the concrete
evaluations below. -/
def mkTx (i : String) (amt : String) : Transaction :=
  { id := i, hash := "0xhash", fromAddress := "0xfrom", toAddress := "0xto",
    amount := amt, status := "pending", gasLimit := none, gasPrice := none,
    timestamp := "" }

/-- Query parameters with all filters off, amount-ascending sort, page 1. -/
def defaultParams : QueryParams :=
  { statusFilter := "all", dateFrom := "", dateTo := "", search := "",
    sortField := .amount, sortOrder := .asc, page := 1 }

/-- Sixteen concrete transactions: two pages of fifteen and one. -/
def c1list : List Transaction := (List.range 16).map (fun i => mkTx (toString i) "1")

/-- Query asking for page 9999 of `c1list` under a date sort. -/
def c1params : QueryParams :=
  { defaultParams with sortField := .date, sortOrder := .desc, page := 9999 }

/-- Transaction with a parseable amount `"5"`. -/
def tx5 : Transaction := mkTx "a" "5"

/-- Transaction with an unparseable amount `"abc"`. -/
def txAbc : Transaction := mkTx "b" "abc"

/-- Transaction with a parseable amount `"7"`. -/
def tx7 : Transaction := mkTx "c" "7"

/-- Transaction with an unparseable amount `"zzz"`. -/
def txZzz : Transaction := mkTx "d" "zzz"

/-- Query with a whitespace-only search string. -/
def paramsWsSearch : QueryParams := { defaultParams with search := " " }

/-- UI state sitting on page 2 with no filters applied. -/
def uiOnPage2 : UiState :=
  { statusFilter := "all", dateFrom := "", dateTo := "", searchQuery := "",
    debouncedSearch := "", sortField := .date, sortOrder := .desc,
    currentPage := 2 }

/-- Transaction mirroring the repository's own CSV test fixture with both
gas fields missing. -/
def txNoGas : Transaction :=
  { id := "1", hash := "0xabc", fromAddress := "0xfrom", toAddress := "0xto",
    amount := "1.0", status := "pending", gasLimit := none, gasPrice := none,
    timestamp := "2024-01-15T10:00:00Z" }

/-- Subtracting a JavaScript number from itself yields a comparison value of
zero after `SortCompare` coercion (either `0` or, for `NaN`/infinite inputs,
a `NaN` coerced to `0`). -/
theorem cmpValue_jsSub_self (x : JsNum) : cmpValue (jsSub x x) = 0 := by
  cases x <;> simp [jsSub, cmpValue]

/-- Negating a self-subtraction also yields comparison value zero. -/
theorem cmpValue_jsNeg_jsSub_self (x : JsNum) : cmpValue (jsNeg (jsSub x x)) = 0 := by
  cases x <;> simp [jsSub, jsNeg, cmpValue]

/-- Transactions with equal sort keys are related by the sort's ordering
relation in both directions and for both sort orders: the comparator yields
an effective comparison value of `0` on such a pair. -/
theorem txLe_of_sortKey_eq (env : DateEnv) (f : SortField) (ord : SortOrder)
    (a b : Transaction) (h : sortKey env f a = sortKey env f b) :
    txLe env f ord a b := by
  have hz : cmpValue (orderedComparison env f ord a b) = 0 := by
    cases f with
    | date =>
      have hd : env.parse a.timestamp = env.parse b.timestamp := by
        simpa [sortKey] using h
      cases ord <;>
        simp [orderedComparison, comparisonRaw, hd, cmpValue_jsSub_self,
          cmpValue_jsNeg_jsSub_self]
    | amount =>
      have hd : jsParseFloat a.amount = jsParseFloat b.amount := by
        simpa [sortKey] using h
      cases ord <;>
        simp [orderedComparison, comparisonRaw, hd, cmpValue_jsSub_self,
          cmpValue_jsNeg_jsSub_self]
    | status =>
      have hd : a.status = b.status := by simpa [sortKey] using h
      cases ord <;> simp [orderedComparison, comparisonRaw, strCmpQ, hd, cmpValue, jsNeg]
  unfold txLe sortCmpVal
  rw [hz]

/-- Membership is preserved into the input of the status stage. -/
theorem mem_of_mem_statusStage {sf : String} {l : List Transaction}
    {tx : Transaction} (h : tx ∈ statusStage sf l) : tx ∈ l := by
  unfold statusStage at h
  split at h
  · exact List.mem_of_mem_filter h
  · exact h

/-- Membership is preserved into the input of the date-from stage. -/
theorem mem_of_mem_dateFromStage {env : DateEnv} {df : String}
    {l : List Transaction} {tx : Transaction} (h : tx ∈ dateFromStage env df l) :
    tx ∈ l := by
  unfold dateFromStage at h
  split at h
  · exact List.mem_of_mem_filter h
  · exact h

/-- Membership is preserved into the input of the date-to stage. -/
theorem mem_of_mem_dateToStage {env : DateEnv} {dt : String}
    {l : List Transaction} {tx : Transaction} (h : tx ∈ dateToStage env dt l) :
    tx ∈ l := by
  unfold dateToStage at h
  split at h
  · exact List.mem_of_mem_filter h
  · exact h

/-- Membership is preserved into the input of the search stage. -/
theorem mem_of_mem_searchStage {s : String} {l : List Transaction}
    {tx : Transaction} (h : tx ∈ searchStage s l) : tx ∈ l := by
  unfold searchStage at h
  split at h
  · exact List.mem_of_mem_filter h
  · exact h

/-- A transaction whose timestamp does not parse is dropped by an active
date-from filter: the `>=` comparison against `NaN` is `false`. -/
theorem not_mem_dateFromStage {env : DateEnv} {df : String}
    {l : List Transaction} {tx : Transaction}
    (hnan : env.parse tx.timestamp = JsNum.nan) (hdf : df ≠ "") :
    tx ∉ dateFromStage env df l := by
  intro h
  unfold dateFromStage at h
  rw [if_pos hdf] at h
  have := (List.mem_filter.mp h).2
  rw [hnan] at this
  simp [jsGeb] at this

/-- A `NaN` left operand makes the JavaScript `<=` comparison false,
whatever the right operand is. -/
theorem jsLeb_nan_left (x : JsNum) : jsLeb JsNum.nan x = false := by
  cases x <;> rfl

/-- A transaction whose timestamp does not parse is likewise dropped by an
active date-to filter: the `<=` comparison against `NaN` is `false`. -/
theorem not_mem_dateToStage {env : DateEnv} {dt : String}
    {l : List Transaction} {tx : Transaction}
    (hnan : env.parse tx.timestamp = JsNum.nan) (hdt : dt ≠ "") :
    tx ∉ dateToStage env dt l := by
  intro h
  unfold dateToStage at h
  rw [if_pos hdt] at h
  have := (List.mem_filter.mp h).2
  rw [hnan, jsLeb_nan_left] at this
  exact Bool.false_ne_true this

/-- Each filter stage never lengthens the list, and the sort stage preserves
length, so the whole pipeline output is no longer than its input. -/
theorem filteredAndSorted_length_le (env : DateEnv) (txs : List Transaction)
    (p : QueryParams) :
    (filteredAndSortedTransactions env txs p).length ≤ txs.length := by
  have h1 : ∀ l : List Transaction, (statusStage p.statusFilter l).length ≤ l.length := by
    intro l
    unfold statusStage
    split
    · exact List.length_filter_le _ _
    · exact le_refl _
  have h2 : ∀ l : List Transaction, (dateFromStage env p.dateFrom l).length ≤ l.length := by
    intro l
    unfold dateFromStage
    split
    · exact List.length_filter_le _ _
    · exact le_refl _
  have h3 : ∀ l : List Transaction, (dateToStage env p.dateTo l).length ≤ l.length := by
    intro l
    unfold dateToStage
    split
    · exact List.length_filter_le _ _
    · exact le_refl _
  have h4 : ∀ l : List Transaction, (searchStage p.search l).length ≤ l.length := by
    intro l
    unfold searchStage
    split
    · exact List.length_filter_le _ _
    · exact le_refl _
  unfold filteredAndSortedTransactions sortStage
  rw [List.length_insertionSort]
  exact le_trans (h4 _) (le_trans (h3 _) (le_trans (h2 _) (h1 _)))

/-- Shifting the page window: the pages `s+1, …, s+n` of `l` are the pages
`s, …, s+n-1` of `l` with its first `k` entries removed, for `1 ≤ s`. -/
theorem paginate_shift {α : Type} (k : ℕ) (l : List α) :
    ∀ (n s : ℕ), 1 ≤ s →
      (List.range' (s + 1) n).flatMap (fun pg => paginateList l pg k)
        = (List.range' s n).flatMap (fun pg => paginateList (l.drop k) pg k) := by
  intro n
  induction n with
  | zero => intro s _; rfl
  | succ n ih =>
    intro s hs
    rw [List.range'_succ, List.range'_succ, List.flatMap_cons, List.flatMap_cons,
      ih (s + 1) (le_trans hs (Nat.le_succ s))]
    have hhead : paginateList l (s + 1) k = paginateList (l.drop k) s k := by
      unfold paginateList
      rw [List.drop_drop]
      have hsk : (s + 1 - 1) * k = k + (s - 1) * k := by
        have h1 : s - 1 + 1 = s := Nat.sub_add_cancel hs
        calc (s + 1 - 1) * k = s * k := by rw [Nat.add_sub_cancel]
          _ = (s - 1 + 1) * k := by rw [h1]
          _ = (s - 1) * k + k := Nat.succ_mul _ _
          _ = k + (s - 1) * k := Nat.add_comm _ _
      rw [hsk]
    rw [hhead]

/-- Pagination coverage, list form: for `k ≥ 1`, concatenating the page
slices `1, …, ⌈|l| / k⌉` of `l` reproduces `l`. -/
theorem paginate_cover {α : Type} (k : ℕ) (hk : 1 ≤ k) :
    ∀ (n : ℕ) (l : List α), totalPagesFor l.length k = n →
      (List.range' 1 n).flatMap (fun pg => paginateList l pg k) = l := by
  intro n
  induction n with
  | zero =>
    intro l h
    unfold totalPagesFor at h
    have hlen : l.length = 0 := by
      by_contra hne
      have h1 : 1 ≤ l.length := Nat.one_le_iff_ne_zero.mpr hne
      have h2 : k ≤ l.length + k - 1 := by omega
      have := (Nat.one_le_div_iff (by omega)).mpr h2
      omega
    rw [List.length_eq_zero.mp hlen]
    rfl
  | succ n ih =>
    intro l h
    unfold totalPagesFor at h
    have hk0 : 0 < k := hk
    have hlen : 1 ≤ l.length := by
      by_contra hne
      have h0 : l.length = 0 := by omega
      rw [h0] at h
      have : (0 + k - 1) / k = 0 := Nat.div_eq_of_lt (by omega)
      omega
    rw [List.range'_succ, List.flatMap_cons]
    have hhead : paginateList l 1 k = l.take k := by
      unfold paginateList
      simp
    by_cases hsmall : l.length ≤ k
    · have hone : (l.length + k - 1) / k < 2 := by
        rw [Nat.div_lt_iff_lt_mul hk0]
        omega
      have hn0 : n = 0 := by omega
      subst hn0
      rw [hhead]
      simpa using List.take_of_length_le hsmall
    · have hlarge : k < l.length := by omega
      rw [paginate_shift k l n 1 (le_refl 1), hhead]
      have hdrop : totalPagesFor (l.drop k).length k = n := by
        unfold totalPagesFor
        rw [List.length_drop]
        have e1 : l.length + k - 1 = (l.length - 1) + k := by omega
        rw [e1, Nat.add_div_right _ hk0] at h
        have e2 : l.length - k + k - 1 = (l.length - 1 - k) + k := by omega
        rw [e2, Nat.add_div_right _ hk0]
        have e3 : l.length - 1 = (l.length - 1 - k) + k := by omega
        rw [e3, Nat.add_div_right _ hk0] at h
        omega
      rw [ih (l.drop k) hdrop]
      exact List.take_append_drop k l

/-- The source's accumulate-then-join loop is a map: folding rows onto an
initial line list appends one serialized row per record. -/
theorem foldl_append_map {α β : Type} (f : α → β) :
    ∀ (l : List α) (init : List β),
      l.foldl (fun acc r => acc ++ [f r]) init = init ++ l.map f := by
  intro l
  induction l with
  | nil => intro init; simp
  | cons x xs ih =>
    intro init
    simp only [List.foldl_cons, List.map_cons]
    rw [ih (init ++ [f x])]
    simp

/-- Doubling quotes is the identity on a string with no double quote. -/
theorem doubleQuotes_eq_self :
    ∀ (cs : List Char), (∀ c ∈ cs, c ≠ '"') → doubleQuotes cs = cs := by
  intro cs
  induction cs with
  | nil => intro _; rfl
  | cons c rest ih =>
    intro h
    unfold doubleQuotes
    rw [if_neg (h c (List.mem_cons_self c rest))]
    rw [ih (fun x hx => h x (List.mem_cons_of_mem c hx))]

/-- The fixed-decimals rendering always contains a decimal point. -/
theorem dot_mem_toFixed8Pos (x : ℚ) : '.' ∈ (toFixed8Pos x).toList := by
  unfold toFixed8Pos
  simp

/-- A non-`NaN` number never renders as `"N/A"` under `toFixed(8)`: the
infinite renderings are fixed strings and the finite ones contain a decimal
point, which `"N/A"` does not. -/
theorem jsToFixed8_ne_NA : ∀ n : JsNum, n ≠ JsNum.nan → jsToFixed8 n ≠ "N/A" := by
  intro n hn
  cases n with
  | nan => exact absurd rfl hn
  | posInf => decide
  | negInf => decide
  | fin q =>
    by_cases hq : q < 0
    · have he : jsToFixed8 (JsNum.fin q) = "-" ++ toFixed8Pos (-q) := by
        simp [jsToFixed8, hq]
      rw [he]
      intro h
      have hmem : '.' ∈ ("-" ++ toFixed8Pos (-q)).toList := by
        have hsplit : ("-" ++ toFixed8Pos (-q)).toList
            = "-".toList ++ (toFixed8Pos (-q)).toList := by simp
        rw [hsplit]
        exact List.mem_append_right _ (dot_mem_toFixed8Pos (-q))
      rw [h] at hmem
      exact absurd hmem (by decide)
    · have he : jsToFixed8 (JsNum.fin q) = toFixed8Pos q := by
        simp [jsToFixed8, hq]
      rw [he]
      intro h
      have hmem := dot_mem_toFixed8Pos q
      rw [h] at hmem
      exact absurd hmem (by decide)

/-- Claim C1, counterexample: with 16 transactions (2 pages of 15) and
`page = 9999`, the pipeline's filtered-sorted list is non-empty and has two
pages, yet the returned page slice is empty — the page index is not clamped
and the last page's content is not returned. -/
theorem C1_counterexample :
    (filteredAndSortedTransactions nanDateEnv c1list c1params).length = 16 ∧
    totalPagesOf nanDateEnv c1list c1params = 2 ∧
    paginatedTransactions nanDateEnv c1list c1params = [] ∧
    paginateList (filteredAndSortedTransactions nanDateEnv c1list c1params) 2 itemsPerPage ≠ [] := by
  refine ⟨by decide, by decide, by decide, by decide⟩

/-- Claim C1, amended: the pipeline does not clamp an out-of-range page;
whenever the requested page exceeds `totalPages`, the returned page slice is
empty (the slice starts beyond the end of the list). -/
theorem C1_amended (env : DateEnv) (txs : List Transaction) (p : QueryParams)
    (h : totalPagesOf env txs p < p.page) :
    paginatedTransactions env txs p = [] := by
  have hlen : (filteredAndSortedTransactions env txs p).length
      ≤ (p.page - 1) * itemsPerPage := by
    unfold totalPagesOf totalPagesFor itemsPerPage at h
    unfold itemsPerPage
    omega
  unfold paginatedTransactions paginateList
  rw [List.drop_eq_nil_of_le hlen]
  exact List.take_nil

/-- Claim C1, witness for the amended theorem at a concrete input: one
transaction, requested page 9999. -/
theorem C1_amended_witness :
    totalPagesOf nanDateEnv [mkTx "w" "1"] c1params < c1params.page ∧
    paginatedTransactions nanDateEnv [mkTx "w" "1"] c1params = [] :=
  ⟨by decide, C1_amended nanDateEnv [mkTx "w" "1"] c1params (by decide)⟩

/-- Claim C2, counterexample: with amounts `"5"` and `"abc"` under an
ascending amount sort, the pipeline keeps the unparseable-amount transaction
in place (its `NaN` comparison is treated as equality), while sorting with
the claimed coerce-to-zero semantics would put it first; the two orders
differ. -/
theorem C2_counterexample :
    filteredAndSortedTransactions nanDateEnv [tx5, txAbc] defaultParams = [tx5, txAbc] ∧
    claimAmountSort .asc [tx5, txAbc] = [txAbc, tx5] ∧
    filteredAndSortedTransactions nanDateEnv [tx5, txAbc] defaultParams
      ≠ claimAmountSort .asc [tx5, txAbc] := by
  refine ⟨by decide, by decide, by decide⟩

/-- Claim C2, amended: under `sortField = 'amount'` a transaction whose
amount string does not parse yields a `NaN` comparator result against every
other transaction, which the sort coerces to `0` — it compares as equal to
everything (in both directions and for both sort orders), not as if its
amount were `0`. -/
theorem C2_amended (env : DateEnv) (ord : SortOrder) (a b : Transaction)
    (h : jsParseFloat a.amount = JsNum.nan) :
    sortCmpVal env .amount ord a b = 0 ∧ sortCmpVal env .amount ord b a = 0 := by
  constructor
  · cases hb : jsParseFloat b.amount <;> cases ord <;>
      simp [sortCmpVal, orderedComparison, comparisonRaw, h, hb, jsSub, jsNeg, cmpValue]
  · cases hb : jsParseFloat b.amount <;> cases ord <;>
      simp [sortCmpVal, orderedComparison, comparisonRaw, h, hb, jsSub, jsNeg, cmpValue]

/-- Claim C2, witness for the amended theorem: the `"abc"`-amount transaction
compares as equal to the `"5"`-amount transaction in both directions. -/
theorem C2_amended_witness :
    jsParseFloat txAbc.amount = JsNum.nan ∧
    (sortCmpVal nanDateEnv .amount .asc txAbc tx5 = 0 ∧
     sortCmpVal nanDateEnv .amount .asc tx5 txAbc = 0) :=
  ⟨by decide, C2_amended nanDateEnv .asc txAbc tx5 (by decide)⟩

/-- Claim C3, counterexample: from a state on page 2, changing the status
filter, either date bound, or the search query text changes that parameter
but leaves the current page at 2 — none of these handlers resets the page
to 1. -/
theorem C3_counterexample :
    (step uiOnPage2 (UiEvent.setStatus "pending")).statusFilter ≠ uiOnPage2.statusFilter ∧
    (step uiOnPage2 (UiEvent.setStatus "pending")).currentPage ≠ 1 ∧
    (step uiOnPage2 (UiEvent.setDateFrom "2024-01-01")).dateFrom ≠ uiOnPage2.dateFrom ∧
    (step uiOnPage2 (UiEvent.setDateFrom "2024-01-01")).currentPage ≠ 1 ∧
    (step uiOnPage2 (UiEvent.setDateTo "2024-02-02")).dateTo ≠ uiOnPage2.dateTo ∧
    (step uiOnPage2 (UiEvent.setDateTo "2024-02-02")).currentPage ≠ 1 ∧
    (step uiOnPage2 (UiEvent.setSearch "0x")).searchQuery ≠ uiOnPage2.searchQuery ∧
    (step uiOnPage2 (UiEvent.setSearch "0x")).currentPage ≠ 1 := by
  refine ⟨by decide, by decide, by decide, by decide, by decide, by decide, by decide,
    by decide⟩

/-- Claim C3, amended: exactly the sort-toggle handler, the search debounce
step, and the clear-filters handler reset the current page to 1, in every
state; the status-filter setter, both date-bound setters, and the search
keystroke itself leave the current page unchanged, for every state and every
new value. -/
theorem C3_amended (s : UiState) (f : SortField) (v : String) :
    (step s (UiEvent.sortClick f)).currentPage = 1 ∧
    (step s UiEvent.debounceFire).currentPage = 1 ∧
    (step s UiEvent.clearFilters).currentPage = 1 ∧
    (step s (UiEvent.setStatus v)).currentPage = s.currentPage ∧
    (step s (UiEvent.setDateFrom v)).currentPage = s.currentPage ∧
    (step s (UiEvent.setDateTo v)).currentPage = s.currentPage ∧
    (step s (UiEvent.setSearch v)).currentPage = s.currentPage := by
  refine ⟨?_, rfl, rfl, rfl, rfl, rfl, rfl⟩
  simp only [step]
  split <;> rfl

/-- Claim C4, counterexample: a whitespace-only search query (`" "`) is not
treated as "no search": the code tests string truthiness, not trimmed
emptiness, so it filters on the literal space and drops a transaction that
an empty query keeps. -/
theorem C4_counterexample :
    filteredAndSortedTransactions nanDateEnv [mkTx "c4" "1"] paramsWsSearch = [] ∧
    filteredAndSortedTransactions nanDateEnv [mkTx "c4" "1"] defaultParams = [mkTx "c4" "1"] ∧
    filteredAndSortedTransactions nanDateEnv [mkTx "c4" "1"] paramsWsSearch
      ≠ filteredAndSortedTransactions nanDateEnv [mkTx "c4" "1"] defaultParams := by
  refine ⟨by decide, by decide, by decide⟩

/-- Claim C4, amended: the search stage is a no-op exactly for the empty
string; for any non-empty query (including whitespace-only ones) a
transaction is retained iff it was retained before and the lowercased query
occurs in the lowercased hash, from-address, or to-address. -/
theorem C4_amended (q : String) (l : List Transaction) (tx : Transaction) :
    searchStage "" l = l ∧
    (tx ∈ searchStage q l ↔
      tx ∈ l ∧ (q = "" ∨ searchMatches (strToLower q) tx = true)) := by
  constructor
  · simp [searchStage]
  · by_cases hq : q = ""
    · subst hq
      simp [searchStage]
    · simp [searchStage, hq, List.mem_filter]

/-- Claim C5: for any `pageSize ≥ 1`, concatenating the page slices
`1, …, totalPages` of the pipeline's filtered-and-sorted list reproduces that
list exactly — no gaps, no duplicates. -/
theorem C5_pagination_coverage (env : DateEnv) (txs : List Transaction)
    (p : QueryParams) (k : ℕ) (hk : 1 ≤ k) :
    (List.range' 1
        (totalPagesFor (filteredAndSortedTransactions env txs p).length k)).flatMap
      (fun pg => paginateList (filteredAndSortedTransactions env txs p) pg k)
      = filteredAndSortedTransactions env txs p :=
  paginate_cover k hk _ _ rfl

/-- Claim C5, witness at a concrete input: two transactions with page size 1. -/
theorem C5_pagination_coverage_witness :
    1 ≤ 1 ∧
    (List.range' 1
        (totalPagesFor
          (filteredAndSortedTransactions nanDateEnv [tx5, txAbc] defaultParams).length
          1)).flatMap
      (fun pg =>
        paginateList (filteredAndSortedTransactions nanDateEnv [tx5, txAbc] defaultParams)
          pg 1)
      = filteredAndSortedTransactions nanDateEnv [tx5, txAbc] defaultParams :=
  ⟨le_refl 1,
    C5_pagination_coverage nanDateEnv [tx5, txAbc] defaultParams 1 (le_refl 1)⟩

/-- Claim C6: the sort stage is stable for both sort orders — two
transactions with equal sort keys that appear in order in the stage's input
appear in the same order in its output. -/
theorem C6_sort_stable (env : DateEnv) (f : SortField) (ord : SortOrder)
    (a b : Transaction) (l : List Transaction)
    (hkey : sortKey env f a = sortKey env f b)
    (hab : List.Sublist [a, b] l) :
    List.Sublist [a, b] (sortStage env f ord l) :=
  List.pair_sublist_insertionSort (txLe_of_sortKey_eq env f ord a b hkey) hab

/-- Claim C6, witness: amounts `"2"` and `"2.0"` have the same numeric sort
key, and a descending amount sort keeps their input order. -/
theorem C6_sort_stable_witness :
    sortKey nanDateEnv .amount (mkTx "e1" "2") = sortKey nanDateEnv .amount (mkTx "e2" "2.0") ∧
    List.Sublist [mkTx "e1" "2", mkTx "e2" "2.0"]
      (sortStage nanDateEnv .amount .desc [mkTx "e1" "2", mkTx "e2" "2.0"]) :=
  ⟨by decide,
    C6_sort_stable nanDateEnv .amount .desc (mkTx "e1" "2") (mkTx "e2" "2.0")
      [mkTx "e1" "2", mkTx "e2" "2.0"] (by decide) (List.Sublist.refl _)⟩

/-- Claim C7, counterexample: the pipeline is total, but malformed amounts do
not degrade to zero for numeric comparisons — with amounts `"7"` and `"zzz"`
the ascending amount sort keeps the input order (NaN comparison treated as
equality), while the claimed zero-coercion would put `"zzz"` first. -/
theorem C7_counterexample :
    filteredAndSortedTransactions nanDateEnv [tx7, txZzz] defaultParams = [tx7, txZzz] ∧
    claimAmountSort .asc [tx7, txZzz] = [txZzz, tx7] ∧
    filteredAndSortedTransactions nanDateEnv [tx7, txZzz] defaultParams
      ≠ claimAmountSort .asc [tx7, txZzz] := by
  refine ⟨by decide, by decide, by decide⟩

/-- Claim C7, amended: the pipeline is a total function (every stage is, by
construction, a total Lean function); for every input its output never
exceeds the input in length, and a transaction with an unparseable timestamp
is excluded whenever either date bound — date-from or date-to — is active.
Unparseable amounts, however, compare as equal (NaN coerced to a zero
comparison result), not as amount zero. -/
theorem C7_amended (env : DateEnv) (txs : List Transaction) (p : QueryParams)
    (tx : Transaction) :
    (filteredAndSortedTransactions env txs p).length ≤ txs.length ∧
    (env.parse tx.timestamp = JsNum.nan → p.dateFrom ≠ "" ∨ p.dateTo ≠ "" →
      tx ∉ filteredAndSortedTransactions env txs p) := by
  refine ⟨filteredAndSorted_length_le env txs p, ?_⟩
  intro hnan hbound hmem
  unfold filteredAndSortedTransactions sortStage at hmem
  rw [List.mem_insertionSort] at hmem
  rcases hbound with hdf | hdt
  · exact not_mem_dateFromStage hnan hdf
      (mem_of_mem_dateToStage (mem_of_mem_searchStage hmem))
  · exact not_mem_dateToStage hnan hdt (mem_of_mem_searchStage hmem)

/-- Claim C7, witness for the amended theorem: one transaction with an
unparseable timestamp under an active date-to bound (date-from inactive),
exercising the exclusion's hypotheses. -/
theorem C7_amended_witness :
    nanDateEnv.parse (mkTx "w7" "1").timestamp = JsNum.nan ∧
    (({ defaultParams with dateTo := "2024-03-01" } : QueryParams).dateFrom ≠ "" ∨
      ({ defaultParams with dateTo := "2024-03-01" } : QueryParams).dateTo ≠ "") ∧
    ((filteredAndSortedTransactions nanDateEnv [mkTx "w7" "1"]
        { defaultParams with dateTo := "2024-03-01" }).length
      ≤ ([mkTx "w7" "1"] : List Transaction).length ∧
     mkTx "w7" "1" ∉ filteredAndSortedTransactions nanDateEnv [mkTx "w7" "1"]
        { defaultParams with dateTo := "2024-03-01" }) :=
  ⟨rfl, Or.inr (by decide),
    ⟨(C7_amended nanDateEnv [mkTx "w7" "1"]
        { defaultParams with dateTo := "2024-03-01" } (mkTx "w7" "1")).1,
     (C7_amended nanDateEnv [mkTx "w7" "1"]
        { defaultParams with dateTo := "2024-03-01" } (mkTx "w7" "1")).2
       rfl (Or.inr (by decide))⟩⟩

/-- `NaN` absorbs multiplication on the right as well. -/
theorem jsMul_nan_right (x : JsNum) : jsMul x JsNum.nan = JsNum.nan := by
  cases x <;> rfl

/-- Claim C8: `transactionsToCsv` is the fixed header followed by one
comma-joined row per transaction (in the source's column order), field
escaping wraps exactly the values containing a comma, quote, or newline in
doubled-quote form and passes all others through unchanged, and the spec's
concrete scenarios (including missing gas fields as empty columns) hold. -/
theorem C8_csv (txs : List Transaction) (s : String) :
    transactionsToCsv txs = String.intercalate "\n" (csvHeader :: txs.map csvRow) ∧
    escapeCsv s = (if s.toList.any isCsvSpecial then
      "\"" ++ String.mk (doubleQuotes s.toList) ++ "\"" else s) ∧
    escapeCsv "0x,test" = "\"0x,test\"" ∧
    escapeCsv "0x\"quoted\"" = "\"0x\"\"quoted\"\"\"" ∧
    csvRow txNoGas = "1,0xabc,0xfrom,0xto,1.0,pending,,,2024-01-15T10:00:00Z" := by
  refine ⟨?_, ?_, by decide, by decide, by decide⟩
  · unfold transactionsToCsv
    rw [foldl_append_map csvRow txs [csvHeader]]
    rfl
  · unfold escapeCsv
    by_cases hs : s.toList.any isCsvSpecial = true
    · rw [if_pos hs, if_pos hs]
    · rw [if_neg hs, if_neg hs]
      have hnq : ∀ c ∈ s.toList, c ≠ '"' := by
        intro c hc hcq
        apply hs
        refine List.any_eq_true.mpr ⟨c, hc, ?_⟩
        rw [hcq]
        decide
      rw [doubleQuotes_eq_self s.toList hnq]
      cases s
      rfl

/-- Claim C9: applying a theme and reading it back returns that theme, and
the stored-theme reader only ever reports a state whose stored value is
exactly `'light'` or `'dark'` — anything else reads as `null`. -/
theorem C9_theme (t : Theme) (s s2 : DomState) :
    getStoredTheme (applyTheme t s) = some t ∧
    (getStoredTheme s2 = none ∨
      s2.storedTheme = some "light" ∨ s2.storedTheme = some "dark") := by
  constructor
  · cases t <;> simp [applyTheme, getStoredTheme, themeString]
  · rcases h2 : s2.storedTheme with _ | v
    · left
      simp [getStoredTheme, h2]
    · by_cases hd : v = "dark"
      · right; right
        rw [hd]
      · by_cases hl : v = "light"
        · right; left
          rw [hl]
        · left
          simp [getStoredTheme, h2, hd, hl]

/-- Claim C10: `calculateFee` is total and returns `'N/A'` exactly when a gas
field is absent or the product of the numeric parses is not a number
(the code's emptiness test coincides with this because `parseFloat('')` is
`NaN`); otherwise it returns the product fixed to eight decimals. -/
theorem C10_fee (tx : Transaction) :
    (calculateFee tx = "N/A" ↔ feeUnavailable tx = true) ∧
    calculateFee tx = (if feeUnavailable tx then "N/A" else jsToFixed8 (feeProduct tx)) := by
  have hempty : jsParseFloat "" = JsNum.nan := by decide
  have heq : calculateFee tx
      = (if feeUnavailable tx then "N/A" else jsToFixed8 (feeProduct tx)) := by
    rcases hgl : tx.gasLimit with _ | gl
    · simp [calculateFee, feeUnavailable, jsFalsyOptStr, hgl]
    · rcases hgp : tx.gasPrice with _ | gp
      · simp [calculateFee, feeUnavailable, jsFalsyOptStr, hgl, hgp]
      · by_cases hgle : gl = ""
        · have hnanprod : feeProduct tx = JsNum.nan := by
            simp [feeProduct, hgl, hgp, hgle, hempty, jsMul]
          simp [calculateFee, feeUnavailable, jsFalsyOptStr, hgl, hgp, hgle, hnanprod]
        · by_cases hgpe : gp = ""
          · have hnanprod : feeProduct tx = JsNum.nan := by
              simp [feeProduct, hgl, hgp, hgpe, hempty, jsMul_nan_right]
            simp [calculateFee, feeUnavailable, jsFalsyOptStr, hgl, hgp, hgpe, hnanprod]
          · by_cases hnan : feeProduct tx = JsNum.nan
            · simp [calculateFee, feeUnavailable, jsFalsyOptStr, hgl, hgp, hgle, hgpe,
                hnan, feeProduct]
            · simp [calculateFee, feeUnavailable, jsFalsyOptStr, hgl, hgp, hgle, hgpe,
                hnan, feeProduct]
  refine ⟨?_, heq⟩
  rw [heq]
  by_cases hfu : feeUnavailable tx = true
  · simp [hfu]
  · have hne : feeProduct tx ≠ JsNum.nan := by
      intro hcon
      apply hfu
      unfold feeUnavailable
      simp [hcon]
    have hfalse : feeUnavailable tx = false := by
      cases h : feeUnavailable tx
      · rfl
      · exact absurd h hfu
    simp [hfalse]
    exact jsToFixed8_ne_NA _ hne
